import Mathlib

/-!
Verification of `samples/v1/enable_live_rule.py`.

The module validates a rule identifier against the regular expression
`ru_[a-fA-F0-9]{8}-[a-fA-F0-9]{4}-[a-fA-F0-9]{4}-[a-fA-F0-9]{4}-[a-fA-F0-9]{12}`
(via `re.fullmatch`), issues one HTTP POST to
`{CHRONICLE_API_BASE_URL}/v1/rules/{rule_id}:enableLiveRule`, prints the
response body when the status code is at least 400, calls
`response.raise_for_status()` (which raises exactly for status codes in
[400, 600)), and finally returns `response.json()["name"].split("/")[1]`.

The embedding below models the HTTP session as a function from
(method, url) to a response, and collects the observable effects of one
invocation (result or raised error, the list of issued requests, the list
of printed diagnostic lines) in an `Outcome` record.
-/

namespace Chronicle

/-- Characters accepted by the regex character class `[a-fA-F0-9]`. -/
def isHexChar (c : Char) : Bool :=
  c.isDigit
    || (decide (97 ≤ c.toNat) && decide (c.toNat ≤ 102))
    || (decide (65 ≤ c.toNat) && decide (c.toNat ≤ 70))

/-- Consume exactly `n` characters of the class `[a-fA-F0-9]` from the front
of the list, returning the remainder; models a `[a-fA-F0-9]{n}` regex atom. -/
def hexRun : Nat → List Char → Option (List Char)
  | 0, cs => some cs
  | _ + 1, [] => none
  | n + 1, c :: cs => if isHexChar c then hexRun n cs else none

/-- Consume one literal character; models a literal regex atom. -/
def expectChar (ch : Char) : List Char → Option (List Char)
  | [] => none
  | c :: cs => if c = ch then some cs else none

/-- Sequence of the regex after the literal prefix `ru_`:
`[a-fA-F0-9]{8}-[a-fA-F0-9]{4}-[a-fA-F0-9]{4}-[a-fA-F0-9]{4}-[a-fA-F0-9]{12}`. -/
def matchGroups (cs : List Char) : Option (List Char) :=
  (hexRun 8 cs).bind fun r1 =>
  (expectChar '-' r1).bind fun r2 =>
  (hexRun 4 r2).bind fun r3 =>
  (expectChar '-' r3).bind fun r4 =>
  (hexRun 4 r4).bind fun r5 =>
  (expectChar '-' r5).bind fun r6 =>
  (hexRun 4 r6).bind fun r7 =>
  (expectChar '-' r7).bind fun r8 =>
  hexRun 12 r8

/-- Model of `RULE_ID_PATTERN.fullmatch(rule_id)` from the source: the whole
string must be `ru_` followed by the 8-4-4-4-12 hexadecimal groups (the
trailing remainder must be empty, because `fullmatch` anchors both ends). -/
def ruleIdFullmatch (s : String) : Bool :=
  match s.data with
  | 'r' :: 'u' :: '_' :: rest => decide (matchGroups rest = some [])
  | _ => false

/-- Minimal JSON value model: enough for the decoded response bodies the
sample manipulates (an object with a string field `name`). -/
inductive Json where
  | str : String → Json
  | num : Int → Json
  | obj : List (String × Json) → Json
  | null : Json
deriving Repr

/-- Error kinds an invocation can raise.  `valueError` is Python `ValueError`
(the spec's InvalidArgument), `httpError` is `requests.exceptions.HTTPError`,
`jsonDecodeError` models `response.json()` failing, `keyError` models
`["name"]` on an object without that key, `typeError` models indexing or
splitting a non-object / non-string value, and `indexError` models `[1]` on a
too-short list.  `malformedResponse` is modelled from the spec: the spec's
distinct MalformedResponse error kind, which the source never raises; it is
included only so that statements can compare the code against it. -/
inductive ErrKind where
  | valueError : String → ErrKind
  | httpError : Nat → String → ErrKind
  | jsonDecodeError : ErrKind
  | keyError : String → ErrKind
  | typeError : ErrKind
  | indexError : ErrKind
  | malformedResponse : ErrKind
deriving Repr, DecidableEq

/-- Model of one HTTP response: status code, text body, and the result of
JSON-decoding the body (`none` when the body is not valid JSON). -/
structure Response where
  status_code : Nat
  text : String
  json : Option Json
deriving Repr

/-- Model of the authorized HTTP session: a function from (method, url) to
the response the server gives for that request. -/
abbrev Client := String → String → Response

/-- Every observable effect of one invocation: the returned string or the
raised error, the outbound requests issued (method, url) in order, and the
lines printed to standard output in order. -/
structure Outcome where
  result : Except ErrKind String
  calls : List (String × String)
  printed : List String
deriving Repr

/-- Constant `CHRONICLE_API_BASE_URL` from the source. -/
def CHRONICLE_API_BASE_URL : String := "https://backstory.googleapis.com"

/-- ASCII apostrophe, written via its code point. -/
def apos : String := String.singleton (Char.ofNat 39)

/-- Message of the `ValueError` raised by the source:
`Invalid detection rule ID: {apos}{rule_id}{apos} != {apos}ru_<UUID>{apos}.` -/
def invalidRuleIdMessage (rule_id : String) : String :=
  "Invalid detection rule ID: " ++ apos ++ rule_id ++ apos ++ " != " ++ apos
    ++ "ru_<UUID>" ++ apos ++ "."

/-- URL built by the source:
`{CHRONICLE_API_BASE_URL}/v1/rules/{rule_id}:enableLiveRule`. -/
def ruleUrl (rule_id : String) : String :=
  CHRONICLE_API_BASE_URL ++ "/v1/rules/" ++ rule_id ++ ":enableLiveRule"

/-- Semantics of `requests.Response.raise_for_status()`: it raises an
`HTTPError` exactly when `400 <= status_code < 600` (client or server error
ranges); codes at 600 and above raise nothing. -/
def raiseForStatusRaises (status_code : Nat) : Bool :=
  decide (400 ≤ status_code) && decide (status_code < 600)

/-- Python `str.split(sep)` for a one-character separator: split at every
occurrence of the separator, keeping empty pieces; `"".split(sep)` is `[""]`.
The accumulator holds the current piece reversed. -/
def pySplitAux (sep : Char) : List Char → List Char → List (List Char)
  | [], acc => [acc.reverse]
  | c :: cs, acc =>
    if c = sep then acc.reverse :: pySplitAux sep cs []
    else pySplitAux sep cs (c :: acc)

/-- Python `s.split(sep)` for a one-character separator. -/
def pySplit (s : String) (sep : Char) : List String :=
  (pySplitAux sep s.data []).map fun l => String.mk l

/-- Model of `response.json()[key]` up to the point where the value is used:
a lookup in a JSON object, with the Python error raised on each failure. -/
def jsonGet (j : Json) (key : String) : Except ErrKind Json :=
  match j with
  | .obj fields =>
    match fields.lookup key with
    | some v => .ok v
    | none => .error (.keyError key)
  | _ => .error .typeError

/-- Model of the final line of the source,
`return response.json()["name"].split("/")[1]`: decode the body, read the
`name` field, require it to be a string, split on `/`, and take index 1
(raising `IndexError` when the split has fewer than two pieces). -/
def parseResponse (response : Response) : Except ErrKind String :=
  match response.json with
  | none => .error .jsonDecodeError
  | some j =>
    match jsonGet j "name" with
    | .error e => .error e
    | .ok (.str name) =>
      match pySplit name '/' with
      | _ :: second :: _ => .ok second
      | _ => .error .indexError
    | .ok _ => .error .typeError

/-- Model of `enable_live_rule(http_session, rule_id)`.  The branches follow
the source line by line: validate the identifier (raising `ValueError` before
any request when the full match fails), issue the single POST, print the body
when the status code is at least 400, let `raise_for_status()` raise for
status codes in [400, 600), and otherwise parse the JSON body. -/
def enableLiveRule (http_session : Client) (rule_id : String) : Outcome :=
  if ruleIdFullmatch rule_id = false then
    { result := .error (.valueError (invalidRuleIdMessage rule_id))
      calls := []
      printed := [] }
  else
    let url := ruleUrl rule_id
    let response := http_session "POST" url
    { result :=
        if raiseForStatusRaises response.status_code then
          .error (.httpError response.status_code response.text)
        else
          parseResponse response
      calls := [("POST", url)]
      printed := if 400 ≤ response.status_code then [response.text] else [] }

/-- Spec-side description of one hexadecimal group: a string of exactly `n`
characters, each a case-insensitive hexadecimal digit. -/
def isHexGroup (n : Nat) (g : String) : Prop :=
  g.length = n ∧ ∀ c ∈ g.data, isHexChar c = true

/-- Modelled from the spec: a full-string decomposition as `ru_` followed by
8-4-4-4-12 case-insensitive hexadecimal groups separated by hyphens. -/
def specRuleIdShape (s : String) : Prop :=
  ∃ g1 g2 g3 g4 g5 : String,
    s = "ru_" ++ g1 ++ "-" ++ g2 ++ "-" ++ g3 ++ "-" ++ g4 ++ "-" ++ g5
      ∧ isHexGroup 8 g1 ∧ isHexGroup 4 g2 ∧ isHexGroup 4 g3
      ∧ isHexGroup 4 g4 ∧ isHexGroup 12 g5

/-- Modelled from the spec: everything following the first `/` of the string
(the claimed return value in C2). -/
def suffixAfterFirstSlash (name : String) : String :=
  String.mk ((name.data.dropWhile fun c => ¬ c = '/').drop 1)

/-- Substring of `name` strictly between the first `/` and the following `/`
(or the end of the string): the piece at index 1 of the Python split. -/
def secondSegment (name : String) : String :=
  String.mk (((name.data.dropWhile fun c => ¬ c = '/').drop 1).takeWhile
    fun c => ¬ c = '/')

/-- Modelled from the spec: the OperationIdentifier shape
`rulejob_jo_<UUID>`.  The source never checks this shape; the definition
exists only to state that fact. -/
def opIdFullmatch (s : String) : Bool :=
  match s.data with
  | 'r' :: 'u' :: 'l' :: 'e' :: 'j' :: 'o' :: 'b' :: '_' :: 'j' :: 'o' :: '_' :: rest =>
    decide (matchGroups rest = some [])
  | _ => false

/-! ### Helper lemmas -/

theorem data_append (a b : String) : (a ++ b).data = a.data ++ b.data := rfl

theorem string_eq_of_data {a b : String} (h : a.data = b.data) : a = b := by
  cases a
  cases b
  exact congrArg String.mk h

theorem expectChar_eq_some {ch : Char} {cs rest : List Char} :
    expectChar ch cs = some rest ↔ cs = ch :: rest := by
  cases cs with
  | nil => simp [expectChar]
  | cons c cs0 =>
    by_cases h : c = ch
    · subst h
      simp [expectChar]
    · simp [expectChar, h]

theorem hexRun_eq_some {n : Nat} {cs rest : List Char} :
    hexRun n cs = some rest ↔
      ∃ pre : List Char,
        cs = pre ++ rest ∧ pre.length = n ∧ ∀ c ∈ pre, isHexChar c = true := by
  induction n generalizing cs with
  | zero =>
    constructor
    · intro h
      refine ⟨[], ?_, rfl, by simp⟩
      simpa [hexRun] using h
    · rintro ⟨pre, hcs, hlen, -⟩
      have hpre : pre = [] := List.eq_nil_of_length_eq_zero hlen
      subst hpre
      simpa [hexRun] using hcs
  | succ n ih =>
    cases cs with
    | nil =>
      simp only [hexRun]
      constructor
      · intro h
        exact absurd h (by simp)
      · rintro ⟨pre, hcs, hlen, -⟩
        have : pre = [] ∧ rest = [] := by
          constructor
          · exact List.eq_nil_of_length_eq_zero (by
              have := congrArg List.length hcs
              simp at this
              omega)
          · cases List.append_eq_nil.mp hcs.symm with
            | intro h1 h2 => exact h2
        rcases this with ⟨h1, -⟩
        subst h1
        simp at hlen
    | cons c cs0 =>
      by_cases hc : isHexChar c = true
      · rw [show hexRun (n + 1) (c :: cs0) = hexRun n cs0 by simp [hexRun, hc], ih]
        constructor
        · rintro ⟨pre, hcs, hlen, hhex⟩
          refine ⟨c :: pre, by simp [hcs], by simp [hlen], ?_⟩
          intro x hx
          rcases List.mem_cons.mp hx with h | h
          · subst h; exact hc
          · exact hhex x h
        · rintro ⟨pre, hcs, hlen, hhex⟩
          cases pre with
          | nil => simp at hlen
          | cons p ps =>
            have hcp : c = p := by
              have := congrArg (fun l => l.head?) hcs
              simpa using this
            refine ⟨ps, ?_, by simpa using hlen, fun x hx => hhex x (by simp [hx])⟩
            have := congrArg (fun l => l.tail) hcs
            simpa using this
      · simp only [hexRun, hc, if_false]
        constructor
        · intro h
          exact absurd h (by simp)
        · rintro ⟨pre, hcs, hlen, hhex⟩
          cases pre with
          | nil => simp at hlen
          | cons p ps =>
            have hcp : c = p := by
              have := congrArg (fun l => l.head?) hcs
              simpa using this
            exact absurd (hcp ▸ hhex p (by simp)) hc

/-- Abbreviation for "list of exactly `n` hexadecimal characters". -/
def hexList (n : Nat) (g : List Char) : Prop :=
  g.length = n ∧ ∀ c ∈ g, isHexChar c = true

theorem matchGroups_eq_some_nil {cs : List Char} :
    matchGroups cs = some [] ↔
      ∃ g1 g2 g3 g4 g5 : List Char,
        cs = g1 ++ '-' :: (g2 ++ '-' :: (g3 ++ '-' :: (g4 ++ '-' :: g5)))
          ∧ hexList 8 g1 ∧ hexList 4 g2 ∧ hexList 4 g3 ∧ hexList 4 g4
          ∧ hexList 12 g5 := by
  constructor
  · intro h
    simp only [matchGroups] at h
    obtain ⟨r1, e1, h⟩ := Option.bind_eq_some.mp h
    obtain ⟨r2, e2, h⟩ := Option.bind_eq_some.mp h
    obtain ⟨r3, e3, h⟩ := Option.bind_eq_some.mp h
    obtain ⟨r4, e4, h⟩ := Option.bind_eq_some.mp h
    obtain ⟨r5, e5, h⟩ := Option.bind_eq_some.mp h
    obtain ⟨r6, e6, h⟩ := Option.bind_eq_some.mp h
    obtain ⟨r7, e7, h⟩ := Option.bind_eq_some.mp h
    obtain ⟨r8, e8, h⟩ := Option.bind_eq_some.mp h
    obtain ⟨g1, hc1, hl1, hh1⟩ := hexRun_eq_some.mp e1
    have hr1 := expectChar_eq_some.mp e2
    obtain ⟨g2, hc2, hl2, hh2⟩ := hexRun_eq_some.mp e3
    have hr3 := expectChar_eq_some.mp e4
    obtain ⟨g3, hc3, hl3, hh3⟩ := hexRun_eq_some.mp e5
    have hr5 := expectChar_eq_some.mp e6
    obtain ⟨g4, hc4, hl4, hh4⟩ := hexRun_eq_some.mp e7
    have hr7 := expectChar_eq_some.mp e8
    obtain ⟨g5, hc8, hl5, hh5⟩ := hexRun_eq_some.mp h
    subst hc1 hr1 hc2 hr3 hc3 hr5 hc4 hr7 hc8
    exact ⟨g1, g2, g3, g4, g5, by simp, ⟨hl1, hh1⟩, ⟨hl2, hh2⟩, ⟨hl3, hh3⟩,
      ⟨hl4, hh4⟩, ⟨hl5, hh5⟩⟩
  · rintro ⟨g1, g2, g3, g4, g5, hcs, ⟨hl1, hh1⟩, ⟨hl2, hh2⟩, ⟨hl3, hh3⟩,
      ⟨hl4, hh4⟩, ⟨hl5, hh5⟩⟩
    subst hcs
    have e1 : hexRun 8 (g1 ++ '-' :: (g2 ++ '-' :: (g3 ++ '-' :: (g4 ++ '-' :: g5))))
        = some ('-' :: (g2 ++ '-' :: (g3 ++ '-' :: (g4 ++ '-' :: g5)))) :=
      hexRun_eq_some.mpr ⟨g1, rfl, hl1, hh1⟩
    have e3 : hexRun 4 (g2 ++ '-' :: (g3 ++ '-' :: (g4 ++ '-' :: g5)))
        = some ('-' :: (g3 ++ '-' :: (g4 ++ '-' :: g5))) :=
      hexRun_eq_some.mpr ⟨g2, rfl, hl2, hh2⟩
    have e5 : hexRun 4 (g3 ++ '-' :: (g4 ++ '-' :: g5))
        = some ('-' :: (g4 ++ '-' :: g5)) :=
      hexRun_eq_some.mpr ⟨g3, rfl, hl3, hh3⟩
    have e7 : hexRun 4 (g4 ++ '-' :: g5) = some ('-' :: g5) :=
      hexRun_eq_some.mpr ⟨g4, rfl, hl4, hh4⟩
    have e9 : hexRun 12 g5 = some [] :=
      hexRun_eq_some.mpr ⟨g5, by simp, hl5, hh5⟩
    simp [matchGroups, e1, e3, e5, e7, e9, expectChar]

theorem ruleIdFullmatch_eq_true_iff (s : String) :
    ruleIdFullmatch s = true ↔
      ∃ rest : List Char,
        s.data = 'r' :: 'u' :: '_' :: rest ∧ matchGroups rest = some [] := by
  unfold ruleIdFullmatch
  split
  · rename_i rest heq
    simp only [decide_eq_true_eq, heq]
    constructor
    · intro h
      exact ⟨rest, rfl, h⟩
    · rintro ⟨rest2, hr, h⟩
      obtain rfl : rest = rest2 := by simpa using hr
      exact h
  · rename_i hno
    constructor
    · intro h
      exact absurd h (by simp)
    · rintro ⟨rest, hr, -⟩
      exact absurd hr (by exact fun hr => hno rest hr)

theorem ruleIdFullmatch_iff_spec (s : String) :
    ruleIdFullmatch s = true ↔ specRuleIdShape s := by
  rw [ruleIdFullmatch_eq_true_iff]
  constructor
  · rintro ⟨rest, hsd, hm⟩
    obtain ⟨g1, g2, g3, g4, g5, hrest, ⟨hl1, hh1⟩, ⟨hl2, hh2⟩, ⟨hl3, hh3⟩,
      ⟨hl4, hh4⟩, ⟨hl5, hh5⟩⟩ := matchGroups_eq_some_nil.mp hm
    refine ⟨String.mk g1, String.mk g2, String.mk g3, String.mk g4, String.mk g5,
      ?_, ⟨hl1, hh1⟩, ⟨hl2, hh2⟩, ⟨hl3, hh3⟩, ⟨hl4, hh4⟩, ⟨hl5, hh5⟩⟩
    apply string_eq_of_data
    rw [hsd, hrest]
    simp [data_append]
  · rintro ⟨g1, g2, g3, g4, g5, hs, ⟨hl1, hh1⟩, ⟨hl2, hh2⟩, ⟨hl3, hh3⟩,
      ⟨hl4, hh4⟩, ⟨hl5, hh5⟩⟩
    refine ⟨g1.data ++ '-' :: (g2.data ++ '-' :: (g3.data ++ '-' :: (g4.data
      ++ '-' :: g5.data))), ?_, ?_⟩
    · rw [hs]
      simp [data_append]
    · exact matchGroups_eq_some_nil.mpr ⟨g1.data, g2.data, g3.data, g4.data,
        g5.data, rfl, ⟨hl1, hh1⟩, ⟨hl2, hh2⟩, ⟨hl3, hh3⟩, ⟨hl4, hh4⟩,
        ⟨hl5, hh5⟩⟩

theorem pySplitAux_no_sep {sep : Char} {cs : List Char} (hn : sep ∉ cs)
    (acc : List Char) : pySplitAux sep cs acc = [acc.reverse ++ cs] := by
  induction cs generalizing acc with
  | nil => simp [pySplitAux]
  | cons c cs0 ih =>
    have hc : ¬ c = sep := fun h => hn (by simp [h])
    rw [pySplitAux, if_neg hc, ih (fun h => hn (by simp [h]))]
    simp

theorem pySplitAux_head {sep : Char} (cs : List Char) (acc : List Char) :
    ∃ t, pySplitAux sep cs acc
      = (acc.reverse ++ (cs.takeWhile fun c => ¬ c = sep)) :: t := by
  induction cs generalizing acc with
  | nil => exact ⟨[], by simp [pySplitAux]⟩
  | cons c cs0 ih =>
    by_cases hc : c = sep
    · subst hc
      refine ⟨pySplitAux c cs0 [], ?_⟩
      rw [pySplitAux, if_pos rfl]
      simp [List.takeWhile_cons]
    · obtain ⟨t, ht⟩ := ih (c :: acc)
      refine ⟨t, ?_⟩
      rw [pySplitAux, if_neg hc, ht]
      simp [List.takeWhile_cons, hc]

theorem pySplitAux_first_two {sep : Char} {cs : List Char} (hs : sep ∈ cs)
    (acc : List Char) :
    ∃ t, pySplitAux sep cs acc
      = (acc.reverse ++ (cs.takeWhile fun c => ¬ c = sep))
        :: (((cs.dropWhile fun c => ¬ c = sep).drop 1).takeWhile
              fun c => ¬ c = sep) :: t := by
  induction cs generalizing acc with
  | nil => cases hs
  | cons c cs0 ih =>
    by_cases hc : c = sep
    · subst hc
      obtain ⟨t, ht⟩ := pySplitAux_head cs0 ([] : List Char)
      refine ⟨t, ?_⟩
      rw [pySplitAux, if_pos rfl, ht]
      simp [List.takeWhile_cons, List.dropWhile_cons]
    · have hs0 : sep ∈ cs0 := by
        rcases List.mem_cons.mp hs with h | h
        · exact absurd h.symm hc
        · exact h
      obtain ⟨t, ht⟩ := ih hs0 (c :: acc)
      refine ⟨t, ?_⟩
      rw [pySplitAux, if_neg hc, ht]
      simp [List.takeWhile_cons, List.dropWhile_cons, hc]

theorem jsonGet_error_shape (j : Json) (k : String) (e : ErrKind)
    (h : jsonGet j k = .error e) : e = .keyError k ∨ e = .typeError := by
  unfold jsonGet at h
  split at h
  · split at h
    · cases h
    · left
      cases h
      rfl
  · right
    cases h
    rfl

theorem parseResponse_ne_httpError (resp : Response) (s : Nat) (b : String) :
    parseResponse resp ≠ .error (.httpError s b) := by
  unfold parseResponse
  split
  · simp
  · split
    · rename_i e heq
      intro hcontra
      have he : e = .httpError s b := by
        injection hcontra
      rcases jsonGet_error_shape _ _ _ heq with h | h <;> simp [he] at h
    · split <;> simp
    · simp

theorem parseResponse_ok {resp : Response} {j : Json} {name : String}
    (hj : resp.json = some j) (hname : jsonGet j "name" = .ok (.str name))
    (hslash : '/' ∈ name.data) :
    parseResponse resp = .ok (secondSegment name) := by
  obtain ⟨t, ht⟩ := pySplitAux_first_two hslash ([] : List Char)
  simp only [parseResponse, hj, hname, pySplit, ht, List.map_cons,
    List.reverse_nil, List.nil_append]
  rfl

theorem parseResponse_no_slash {resp : Response} {j : Json} {name : String}
    (hj : resp.json = some j) (hname : jsonGet j "name" = .ok (.str name))
    (hnos : '/' ∉ name.data) :
    parseResponse resp = .error .indexError := by
  have ht := pySplitAux_no_sep hnos ([] : List Char)
  simp only [parseResponse, hj, hname, pySplit, ht, List.map_cons,
    List.map_nil, List.reverse_nil, List.nil_append]

theorem parseResponse_key_error {resp : Response} {j : Json} {e : ErrKind}
    (hj : resp.json = some j) (hname : jsonGet j "name" = .error e) :
    parseResponse resp = .error e := by
  simp only [parseResponse, hj, hname]

theorem enableLiveRule_invalid {rid : String} (c : Client)
    (h : ruleIdFullmatch rid = false) :
    enableLiveRule c rid =
      { result := .error (.valueError (invalidRuleIdMessage rid))
        calls := []
        printed := [] } := by
  simp [enableLiveRule, h]

theorem enableLiveRule_valid {rid : String} (c : Client)
    (h : ruleIdFullmatch rid = true) :
    enableLiveRule c rid =
      { result :=
          if raiseForStatusRaises (c "POST" (ruleUrl rid)).status_code then
            .error (.httpError (c "POST" (ruleUrl rid)).status_code
              (c "POST" (ruleUrl rid)).text)
          else
            parseResponse (c "POST" (ruleUrl rid))
        calls := [("POST", ruleUrl rid)]
        printed :=
          if 400 ≤ (c "POST" (ruleUrl rid)).status_code then
            [(c "POST" (ruleUrl rid)).text]
          else [] } := by
  simp [enableLiveRule, h]

theorem enableLiveRule_ne_malformed (c : Client) (rid : String) :
    (enableLiveRule c rid).result ≠ .error .malformedResponse := by
  by_cases hv : ruleIdFullmatch rid = true
  · rw [enableLiveRule_valid c hv]
    dsimp only
    split
    · simp
    · unfold parseResponse
      split
      · simp
      · split
        · rename_i e heq
          intro hcontra
          have he : e = .malformedResponse := by
            injection hcontra
          rcases jsonGet_error_shape _ _ _ heq with h | h <;> simp [he] at h
        · split <;> simp
        · simp
  · have hf : ruleIdFullmatch rid = false := by simpa using hv
    rw [enableLiveRule_invalid c hf]
    simp

/-! ### Claim theorems

Concrete inputs used by the witnesses and counterexamples. -/

/-- Well-formed rule identifier used as a concrete input. -/
def ridOk : String := "ru_12345678-1234-1234-1234-123456789abc"

/-! #### Claim C1 -/

/-- C1: `enable_live_rule` accepts a string as a rule identifier exactly when
it is a full-string match of `ru_` followed by 8-4-4-4-12 case-insensitive
hexadecimal groups separated by hyphens; every non-matching string fails with
a `ValueError` carrying the offending value and the expected shape, and no
network call is made (matching strings lead to exactly the one POST). -/
theorem c1_rule_id_validation (c : Client) (rid : String) :
    (ruleIdFullmatch rid = true ↔ specRuleIdShape rid)
    ∧ (¬ specRuleIdShape rid →
        enableLiveRule c rid =
          { result := .error (.valueError (invalidRuleIdMessage rid))
            calls := []
            printed := [] })
    ∧ (specRuleIdShape rid →
        (enableLiveRule c rid).calls = [("POST", ruleUrl rid)]) := by
  refine ⟨ruleIdFullmatch_iff_spec rid, ?_, ?_⟩
  · intro hn
    have hb : ruleIdFullmatch rid = false := by
      cases h : ruleIdFullmatch rid
      · rfl
      · exact absurd ((ruleIdFullmatch_iff_spec rid).mp h) hn
    exact enableLiveRule_invalid c hb
  · intro hs
    rw [enableLiveRule_valid c ((ruleIdFullmatch_iff_spec rid).mpr hs)]

/-- Client used by the C1 witness. -/
def c1client : Client := fun _ _ =>
  { status_code := 200, text := "", json := none }

/-- C1 witness: the matching identifier `ridOk` leads to the single POST,
and the non-matching string `ru_12345678` fails with the `ValueError` and no
network call. -/
theorem c1_witness :
    (enableLiveRule c1client ridOk).calls = [("POST", ruleUrl ridOk)]
    ∧ enableLiveRule c1client "ru_12345678" =
        { result := .error (.valueError (invalidRuleIdMessage "ru_12345678"))
          calls := []
          printed := [] } := by
  constructor
  · exact (c1_rule_id_validation c1client ridOk).2.2
      ((ruleIdFullmatch_iff_spec ridOk).mp (by decide))
  · exact (c1_rule_id_validation c1client "ru_12345678").2.1
      (fun hs =>
        absurd ((ruleIdFullmatch_iff_spec "ru_12345678").mpr hs) (by decide))

/-! #### Claim C2 -/

/-- Client used by claim C2: success response whose `name` has two slashes. -/
def c2client : Client := fun _ _ =>
  { status_code := 200
    text := ""
    json := some (.obj [("name", .str "operations/a/b")]) }

/-- C2 counterexample: for the success response with `name` equal to
`operations/a/b`, the function returns `a`, while the suffix of `name` after
the first `/` is `a/b`; so the returned string is not "everything following
the first slash". -/
theorem c2_counterexample :
    (enableLiveRule c2client ridOk).result = .ok "a"
    ∧ suffixAfterFirstSlash "operations/a/b" = "a/b"
    ∧ ("a" : String) ≠ "a/b" :=
  ⟨rfl, rfl, by decide⟩

/-- C2 (amended): for every success-status response whose JSON body has a
string field `name` containing at least one `/`, the returned string is the
second `/`-separated segment of `name` — the substring strictly between the
first slash and the following slash (or the end of the string). -/
theorem c2_second_segment (c : Client) (rid : String) (j : Json)
    (name : String)
    (hrid : ruleIdFullmatch rid = true)
    (hstatus : (c "POST" (ruleUrl rid)).status_code < 400)
    (hj : (c "POST" (ruleUrl rid)).json = some j)
    (hname : jsonGet j "name" = .ok (.str name))
    (hslash : '/' ∈ name.data) :
    (enableLiveRule c rid).result = .ok (secondSegment name) := by
  rw [enableLiveRule_valid c hrid]
  have hr : raiseForStatusRaises (c "POST" (ruleUrl rid)).status_code
      = false := by
    simp only [raiseForStatusRaises, Bool.and_eq_false_iff, decide_eq_false_iff_not]
    omega
  dsimp only
  rw [hr]
  simp only [Bool.false_eq_true, if_false]
  exact parseResponse_ok hj hname hslash

/-- C2 witness: the amended statement evaluated on the `operations/a/b`
response: the function returns the second segment `a`. -/
theorem c2_witness :
    (enableLiveRule c2client ridOk).result = .ok (secondSegment "operations/a/b") :=
  c2_second_segment c2client ridOk (.obj [("name", .str "operations/a/b")])
    "operations/a/b" (by decide) (by decide) rfl rfl (by decide)

/-! #### Claim C3 -/

/-- Client used by the C3 counterexample: status 600 with a parseable body. -/
def c3client600 : Client := fun _ _ =>
  { status_code := 600
    text := "server burp"
    json := some (.obj [("name", .str "operations/op600")]) }

/-- C3 counterexample: a response whose status code is 600 (hence ≥ 400) does
not raise an `HTTPError`: the function prints the body and then returns
normally, because `raise_for_status()` only raises for codes below 600. -/
theorem c3_counterexample :
    400 ≤ (c3client600 "POST" (ruleUrl ridOk)).status_code
    ∧ (enableLiveRule c3client600 ridOk).result = .ok "op600"
    ∧ (enableLiveRule c3client600 ridOk).printed = ["server burp"] :=
  ⟨by decide, rfl, rfl⟩

/-- C3 (amended): for every response with 400 ≤ status code < 600,
`enable_live_rule` raises an `HTTPError` carrying the status code and body;
for every status code ≥ 400 the literal body text is emitted to the
diagnostic channel (it is recorded in `printed` even though the call ends in
the error); the error is not caught or retried (exactly one request). -/
theorem c3_http_error (c : Client) (rid : String)
    (hrid : ruleIdFullmatch rid = true)
    (h4 : 400 ≤ (c "POST" (ruleUrl rid)).status_code) :
    (enableLiveRule c rid).printed = [(c "POST" (ruleUrl rid)).text]
    ∧ ((c "POST" (ruleUrl rid)).status_code < 600 →
        (enableLiveRule c rid).result =
          .error (.httpError (c "POST" (ruleUrl rid)).status_code
            (c "POST" (ruleUrl rid)).text))
    ∧ (enableLiveRule c rid).calls.length = 1 := by
  rw [enableLiveRule_valid c hrid]
  refine ⟨by simp [h4], ?_, by simp⟩
  intro h6
  have hr : raiseForStatusRaises (c "POST" (ruleUrl rid)).status_code
      = true := by
    simp only [raiseForStatusRaises, Bool.and_eq_true, decide_eq_true_eq]
    omega
  dsimp only
  rw [hr]
  simp

/-- Client used by the C3 witness: the spec scenario, status 404 with body
`{"error": "not found"}`. -/
def c3client404 : Client := fun _ _ =>
  { status_code := 404
    text := "\x7b\"error\": \"not found\"\x7d"
    json := none }

/-- C3 witness: on the 404 response the diagnostic channel received the
literal body text and the raised error carries the status code and body. -/
theorem c3_witness :
    (enableLiveRule c3client404 ridOk).printed
      = ["\x7b\"error\": \"not found\"\x7d"]
    ∧ (enableLiveRule c3client404 ridOk).result
      = .error (.httpError 404 "\x7b\"error\": \"not found\"\x7d") := by
  have h := c3_http_error c3client404 ridOk (by decide) (by decide)
  exact ⟨h.1, h.2.1 (by decide)⟩

/-! #### Claim C4 -/

/-- Client used by claim C4: success status, JSON body without `name`. -/
def c4clientNoName : Client := fun _ _ =>
  { status_code := 200
    text := ""
    json := some (.obj [("other", .str "x")]) }

/-- Client used by claim C4: success status, `name` without any slash
(the spec examples use `rulejob_jo_xyz`). -/
def c4clientNoSlash : Client := fun _ _ =>
  { status_code := 200
    text := ""
    json := some (.obj [("name", .str "rulejob_jo_xyz")]) }

/-- C4 counterexample: on a success response whose JSON body lacks `name`,
the function fails with the `KeyError` of the Python dictionary lookup, which
is not the spec's distinct MalformedResponse error kind. -/
theorem c4_counterexample :
    (enableLiveRule c4clientNoName ridOk).result = .error (.keyError "name")
    ∧ ErrKind.keyError "name" ≠ ErrKind.malformedResponse :=
  ⟨rfl, by decide⟩

/-- C4 (amended): on a success status, a JSON body lacking `name` fails with
a `KeyError`, and a `name` containing no `/` fails with an `IndexError`;
no distinct MalformedResponse error kind is ever raised. -/
theorem c4_malformed_name (c : Client) (rid : String) (j : Json)
    (hrid : ruleIdFullmatch rid = true)
    (hstatus : (c "POST" (ruleUrl rid)).status_code < 400)
    (hj : (c "POST" (ruleUrl rid)).json = some j) :
    (jsonGet j "name" = .error (.keyError "name") →
      (enableLiveRule c rid).result = .error (.keyError "name"))
    ∧ (∀ name : String, jsonGet j "name" = .ok (.str name) →
        '/' ∉ name.data →
        (enableLiveRule c rid).result = .error .indexError)
    ∧ (∀ c2 : Client, ∀ rid2 : String,
        (enableLiveRule c2 rid2).result ≠ .error .malformedResponse) := by
  have hr : raiseForStatusRaises (c "POST" (ruleUrl rid)).status_code
      = false := by
    simp only [raiseForStatusRaises, Bool.and_eq_false_iff, decide_eq_false_iff_not]
    omega
  refine ⟨?_, ?_, fun c2 rid2 => enableLiveRule_ne_malformed c2 rid2⟩
  · intro hget
    rw [enableLiveRule_valid c hrid]
    dsimp only
    rw [hr]
    simp only [Bool.false_eq_true, if_false]
    exact parseResponse_key_error hj hget
  · intro name hget hnos
    rw [enableLiveRule_valid c hrid]
    dsimp only
    rw [hr]
    simp only [Bool.false_eq_true, if_false]
    exact parseResponse_no_slash hj hget hnos

/-- C4 witness: the amended statement evaluated on both malformed bodies:
missing `name` gives `KeyError`, slash-free `name` gives `IndexError`. -/
theorem c4_witness :
    (enableLiveRule c4clientNoName ridOk).result = .error (.keyError "name")
    ∧ (enableLiveRule c4clientNoSlash ridOk).result = .error .indexError := by
  constructor
  · exact (c4_malformed_name c4clientNoName ridOk (.obj [("other", .str "x")])
      (by decide) (by decide) rfl).1 rfl
  · exact (c4_malformed_name c4clientNoSlash ridOk
      (.obj [("name", .str "rulejob_jo_xyz")]) (by decide) (by decide)
      rfl).2.1 "rulejob_jo_xyz" rfl (by decide)

/-! #### Claim C5 -/

/-- C5: for every validated rule identifier the POST is issued to exactly
`CHRONICLE_API_BASE_URL ++ "/v1/rules/" ++ rid ++ ":enableLiveRule"`. -/
theorem c5_url (c : Client) (rid : String)
    (hrid : ruleIdFullmatch rid = true) :
    (enableLiveRule c rid).calls
      = [("POST",
          CHRONICLE_API_BASE_URL ++ "/v1/rules/" ++ rid
            ++ ":enableLiveRule")] := by
  rw [enableLiveRule_valid c hrid]
  rfl

/-- Client used by the C5 witness. -/
def c5client : Client := fun _ _ =>
  { status_code := 200, text := "", json := none }

/-- C5 witness: with the identifier of the claim, the issued URL is the
literal `https://backstory.googleapis.com/v1/rules/ru_12345678-1234-1234-1234-123456789abc:enableLiveRule`. -/
theorem c5_witness :
    (enableLiveRule c5client "ru_12345678-1234-1234-1234-123456789abc").calls
      = [("POST",
          "https://backstory.googleapis.com/v1/rules/ru_12345678-1234-1234-1234-123456789abc:enableLiveRule")] := by
  have h := c5_url c5client "ru_12345678-1234-1234-1234-123456789abc"
    (by decide)
  exact h.trans (by decide)

/-! #### Claim C6 -/

/-- Client used by claim C6: the success body of the spec's example. -/
def c6client : Client := fun _ _ =>
  { status_code := 200
    text := ""
    json := some (.obj [("name",
      .str "operations/rulejob_jo_aaaa1111-bbbb-2222-cccc-333344445555")]) }

/-- C6: given a success-status response with body
`name = operations/rulejob_jo_aaaa1111-bbbb-2222-cccc-333344445555`, the
function returns exactly `rulejob_jo_aaaa1111-bbbb-2222-cccc-333344445555`. -/
theorem c6_operation_id :
    (enableLiveRule c6client ridOk).result
      = .ok "rulejob_jo_aaaa1111-bbbb-2222-cccc-333344445555" := rfl

/-! #### Claim C7 -/

/-- C7: every invocation with a valid identifier issues exactly one outbound
request and every invocation with an invalid identifier issues zero requests;
the only other effect is the single diagnostic print, which happens exactly
when the status code of the one response is at least 400. -/
theorem c7_single_call (c : Client) (rid : String) :
    (ruleIdFullmatch rid = true →
      (enableLiveRule c rid).calls.length = 1
      ∧ (enableLiveRule c rid).printed =
          (if 400 ≤ (c "POST" (ruleUrl rid)).status_code then
            [(c "POST" (ruleUrl rid)).text]
          else []))
    ∧ (ruleIdFullmatch rid = false →
      (enableLiveRule c rid).calls.length = 0
      ∧ (enableLiveRule c rid).printed = []) := by
  constructor
  · intro h
    rw [enableLiveRule_valid c h]
    exact ⟨rfl, rfl⟩
  · intro h
    rw [enableLiveRule_invalid c h]
    exact ⟨rfl, rfl⟩

/-- Client used by the C7 witness. -/
def c7client : Client := fun _ _ =>
  { status_code := 200, text := "", json := none }

/-- C7 witness: one request for the valid identifier, zero requests and no
print for the invalid identifier `nope`. -/
theorem c7_witness :
    (enableLiveRule c7client ridOk).calls.length = 1
    ∧ (enableLiveRule c7client "nope").calls.length = 0
    ∧ (enableLiveRule c7client "nope").printed = [] := by
  refine ⟨((c7_single_call c7client ridOk).1 (by decide)).1, ?_, ?_⟩
  · exact ((c7_single_call c7client "nope").2 (by decide)).1
  · exact ((c7_single_call c7client "nope").2 (by decide)).2

/-! #### Claim C8 -/

/-- C8: for every response with status code ≥ 600, the body is printed (the
code is ≥ 400) but no `HTTPError` is raised — `raise_for_status()` only
raises below 600 — and the function proceeds to parse the JSON body, its
result being exactly that of the parsing stage. -/
theorem c8_status_ge_600 (c : Client) (rid : String)
    (hrid : ruleIdFullmatch rid = true)
    (h6 : 600 ≤ (c "POST" (ruleUrl rid)).status_code) :
    (enableLiveRule c rid).printed = [(c "POST" (ruleUrl rid)).text]
    ∧ (enableLiveRule c rid).result = parseResponse (c "POST" (ruleUrl rid))
    ∧ ∀ s : Nat, ∀ b : String,
        (enableLiveRule c rid).result ≠ .error (.httpError s b) := by
  rw [enableLiveRule_valid c hrid]
  have h4 : 400 ≤ (c "POST" (ruleUrl rid)).status_code := by omega
  have hr : raiseForStatusRaises (c "POST" (ruleUrl rid)).status_code
      = false := by
    simp only [raiseForStatusRaises, Bool.and_eq_false_iff, decide_eq_false_iff_not]
    omega
  refine ⟨by simp [h4], ?_, ?_⟩
  · dsimp only
    rw [hr]
    simp
  · intro s b
    dsimp only
    rw [hr]
    simp only [Bool.false_eq_true, if_false]
    exact parseResponse_ne_httpError _ s b

/-- Client used by the C8 witness: status 600 with a well-formed body. -/
def c8client : Client := fun _ _ =>
  { status_code := 600
    text := "burp"
    json := some (.obj [("name", .str "operations/op600x")]) }

/-- C8 witness: the status-600 response gets its body printed and the
function returns the parsed operation identifier normally. -/
theorem c8_witness :
    (enableLiveRule c8client ridOk).printed = ["burp"]
    ∧ (enableLiveRule c8client ridOk).result = .ok "op600x" := by
  have h := c8_status_ge_600 c8client ridOk (by decide) (by decide)
  exact ⟨h.1, h.2.1.trans (by rfl)⟩

/-! #### Claim C9 -/

/-- Client used by claim C9: success response with `name` equal to `/x/`. -/
def c9client : Client := fun _ _ =>
  { status_code := 200
    text := ""
    json := some (.obj [("name", .str "/x/")]) }

/-- C9 counterexample: for `name = /x/` the function returns the string `x`
(the piece between the two slashes), not the empty string asserted by the
claim's example. -/
theorem c9_counterexample :
    (enableLiveRule c9client ridOk).result = .ok "x"
    ∧ ("x" : String) ≠ "" :=
  ⟨rfl, by decide⟩

/-- C9 (amended): the function never validates the shape of the value it
returns: for every success-status response whose `name` has at least two
`/`-separated segments, the second segment is returned as-is even when it
does not match the documented `rulejob_jo_<UUID>` shape (for `name = /x/`
that segment is the string `x`; it would be empty for example for
`name = //`). -/
theorem c9_no_shape_check (c : Client) (rid : String) (j : Json)
    (name : String)
    (hrid : ruleIdFullmatch rid = true)
    (hstatus : (c "POST" (ruleUrl rid)).status_code < 400)
    (hj : (c "POST" (ruleUrl rid)).json = some j)
    (hname : jsonGet j "name" = .ok (.str name))
    (hslash : '/' ∈ name.data)
    (_hshape : opIdFullmatch (secondSegment name) = false) :
    (enableLiveRule c rid).result = .ok (secondSegment name) := by
  rw [enableLiveRule_valid c hrid]
  have hr : raiseForStatusRaises (c "POST" (ruleUrl rid)).status_code
      = false := by
    simp only [raiseForStatusRaises, Bool.and_eq_false_iff, decide_eq_false_iff_not]
    omega
  dsimp only
  rw [hr]
  simp only [Bool.false_eq_true, if_false]
  exact parseResponse_ok hj hname hslash

/-- C9 witness: on the `/x/` response the returned value is the second
segment, whose shape is not `rulejob_jo_<UUID>`. -/
theorem c9_witness :
    (enableLiveRule c9client ridOk).result = .ok (secondSegment "/x/") :=
  c9_no_shape_check c9client ridOk (.obj [("name", .str "/x/")]) "/x/"
    (by decide) (by decide) rfl rfl (by decide) (by decide)

/-! #### Claim C10 -/

/-- C10: the outcome of an invocation is a function of the rule identifier
and of the response the session gives to the one issued request: two sessions
that agree on the response to `POST (ruleUrl rid)` produce identical
outcomes (same returned string or same error, same requests, same prints). -/
theorem c10_deterministic (s1 s2 : Client) (rid : String)
    (h : s1 "POST" (ruleUrl rid) = s2 "POST" (ruleUrl rid)) :
    enableLiveRule s1 rid = enableLiveRule s2 rid := by
  by_cases hv : ruleIdFullmatch rid = true
  · rw [enableLiveRule_valid s1 hv, enableLiveRule_valid s2 hv, h]
  · have hf : ruleIdFullmatch rid = false := by simpa using hv
    rw [enableLiveRule_invalid s1 hf, enableLiveRule_invalid s2 hf]

/-- First client of the C10 witness. -/
def c10clientA : Client := fun _ _ =>
  { status_code := 200
    text := "same"
    json := some (.obj [("name", .str "operations/op10")]) }

/-- Second client of the C10 witness: differs from the first on GET requests
but gives the same response to every POST. -/
def c10clientB : Client := fun m _ =>
  if m = "GET" then { status_code := 500, text := "different", json := none }
  else
    { status_code := 200
      text := "same"
      json := some (.obj [("name", .str "operations/op10")]) }

/-- C10 witness: the two sessions agree on the issued POST, so the two
invocations have identical outcomes. -/
theorem c10_witness :
    enableLiveRule c10clientA ridOk = enableLiveRule c10clientB ridOk :=
  c10_deterministic c10clientA c10clientB ridOk rfl

end Chronicle
